/-
  Verification of the qcc_plus monitoring core against its specification.

  Shallow embedding of:
  * `internal/store/metrics.go` — metrics ingest normalization (`InsertMetrics`),
    rollup (`AggregateMetrics`), retention (`CleanupMetrics`);
  * `internal/proxy/ws_hub.go` — the WebSocket broadcast hub;
  * `internal/proxy/api_health_history.go` — the metrics scheduler's
    cleanup-delay computation (`nextCleanupDelay`);
  * the settings edge handler (`SettingsHandler.UpdateSetting`).

  Go `int64` arithmetic is modelled as `Int` with explicit two's-complement
  wraparound (`wrap64`) at the operations the source performs.
-/
import Mathlib

namespace QccPlus

/-! ## Machine integers

Go's `int64` wraps on overflow.  `wrap64` reduces an unbounded `Int` to the
representative in `[-2^63, 2^63)`, matching Go's two's-complement semantics. -/

def int64Min : Int := -(2 ^ 63)

def int64Max : Int := 2 ^ 63 - 1

def wrap64 (x : Int) : Int := (x + 2 ^ 63) % 2 ^ 64 - 2 ^ 63

theorem wrap64_eq_of_bounds {x : Int} (h1 : -(2 ^ 63) ≤ x) (h2 : x < 2 ^ 63) :
    wrap64 x = x := by
  unfold wrap64
  have h0 : (0 : Int) ≤ x + 2 ^ 63 := by omega
  have hlt : x + 2 ^ 63 < 2 ^ 64 := by omega
  rw [Int.emod_eq_of_lt h0 hlt]
  omega

/-! ## Store: metrics records (`internal/store/metrics.go`)

`MetricsRecord` mirrors the Go struct written to `node_metrics_raw`.
Timestamps are modelled as seconds since the Unix epoch (UTC); the Go zero
`time.Time` is modelled by timestamp `0`. -/

structure MetricsRecord where
  accountID : String
  nodeID : String
  timestamp : Int
  requestsTotal : Int
  requestsSuccess : Int
  requestsFailed : Int
  responseTimeSumMs : Int
  responseTimeCount : Int
  bytesTotal : Int
  inputTokensTotal : Int
  outputTokensTotal : Int
  firstByteTimeSumMs : Int
  streamDurationSumMs : Int
  deriving DecidableEq, Repr

/-- Modelled from the spec: `normalizeAccount` is defined outside the provided
source files; §4.A says ingest "normalizes empty `account_id` to a canonical
form", so the empty account maps to a fixed canonical identifier and any other
account is left unchanged. -/
def normalizeAccount (a : String) : String :=
  if a = "" then "default" else a

/-- The pure normalization performed by `InsertMetrics`
(`internal/store/metrics.go:17-31`) before the row is written:
normalize the account, default a zero timestamp to `nowUTC`, and derive
missing counters.  The stored raw row is exactly the returned record. -/
def insertMetricsNormalize (nowUTC : Int) (rec : MetricsRecord) : MetricsRecord :=
  let r1 := { rec with accountID := normalizeAccount rec.accountID }
  let r2 := if r1.timestamp = 0 then { r1 with timestamp := nowUTC } else r1
  let r3 :=
    if r2.requestsTotal = 0 then
      { r2 with requestsTotal := wrap64 (r2.requestsSuccess + r2.requestsFailed) }
    else r2
  let r4 :=
    if r3.requestsSuccess = 0 ∧ r3.requestsTotal > 0 then
      { r3 with requestsSuccess := wrap64 (r3.requestsTotal - r3.requestsFailed) }
    else r3
  let r5 :=
    if r4.responseTimeCount = 0 ∧ r4.requestsTotal > 0 then
      { r4 with responseTimeCount := r4.requestsTotal }
    else r4
  r5

/-- A record whose explicit counters already violate the invariant:
`requests_total = 1`, `requests_success = 5`, `requests_failed = 5`.
Neither derivation in `InsertMetrics` fires (total and success are nonzero),
so the row is stored as-is. -/
def c1Violator : MetricsRecord :=
  { accountID := "a1", nodeID := "n1", timestamp := 100
    requestsTotal := 1, requestsSuccess := 5, requestsFailed := 5
    responseTimeSumMs := 0, responseTimeCount := 3, bytesTotal := 0
    inputTokensTotal := 0, outputTokensTotal := 0
    firstByteTimeSumMs := 0, streamDurationSumMs := 0 }

/-- C1 (counterexample): the claim "after `InsertMetrics(r)` the stored raw row
satisfies `requests_total ≥ requests_success + requests_failed`" fails for the
concrete record `c1Violator` (`total=1, success=5, failed=5`): no derivation
fires and the row is stored with `1 < 5 + 5`. -/
theorem insertMetrics_invariant_counterexample :
    ¬ ((insertMetricsNormalize 0 c1Violator).requestsSuccess +
        (insertMetricsNormalize 0 c1Violator).requestsFailed ≤
        (insertMetricsNormalize 0 c1Violator).requestsTotal) := by
  decide

/-- C1 (amended): for every record whose counters are non-negative `int64`
values (each field below `2^63`) and whose `requests_success +
requests_failed` sum is also below `2^63` (so the derivation at
`metrics.go:24` does not overflow), the stored raw row satisfies
`requests_total ≥ requests_success + requests_failed` provided the input's
`requests_total` is 0, or its `requests_success` is 0, or the input already
satisfies the inequality.  (When both `requests_total` and `requests_success`
are nonzero, `InsertMetrics` stores the row unchanged, so an input violating
the inequality is stored violating it; and when `requests_success +
requests_failed ≥ 2^63`, the wrapping `int64` addition stores a negative
`requests_total`, also violating it.) -/
theorem insertMetrics_normalization_invariant (nowUTC : Int) (rec : MetricsRecord)
    (hs : 0 ≤ rec.requestsSuccess) (hf : 0 ≤ rec.requestsFailed)
    (ht : 0 ≤ rec.requestsTotal)
    (hbsf : rec.requestsSuccess + rec.requestsFailed < 2 ^ 63)
    (hbt : rec.requestsTotal < 2 ^ 63)
    (hcase : rec.requestsTotal = 0 ∨ rec.requestsSuccess = 0 ∨
      rec.requestsSuccess + rec.requestsFailed ≤ rec.requestsTotal) :
    (insertMetricsNormalize nowUTC rec).requestsSuccess +
      (insertMetricsNormalize nowUTC rec).requestsFailed ≤
      (insertMetricsNormalize nowUTC rec).requestsTotal := by
  unfold insertMetricsNormalize wrap64
  dsimp only
  split_ifs with h1 h2 h3 h4 h5 h6 h7 h8 <;> simp_all <;> omega

/-- C1 witness: the amended invariant at the concrete record
`{total=0, success=2, failed=3}` (the `requests_total` derivation fires). -/
theorem insertMetrics_normalization_invariant_witness :
    (insertMetricsNormalize 7 { c1Violator with
        requestsTotal := 0, requestsSuccess := 2, requestsFailed := 3 }).requestsSuccess +
      (insertMetricsNormalize 7 { c1Violator with
        requestsTotal := 0, requestsSuccess := 2, requestsFailed := 3 }).requestsFailed ≤
      (insertMetricsNormalize 7 { c1Violator with
        requestsTotal := 0, requestsSuccess := 2, requestsFailed := 3 }).requestsTotal :=
  insertMetrics_normalization_invariant 7 _ (by decide) (by decide) (by decide)
    (by decide) (by decide) (by decide)

/-- C8: for every input record whose `requests_success` is 0 while the stored
`requests_total` (after the `requests_total` derivation) is positive, the
stored row has `requests_success = requests_total − requests_failed`; in
particular, when `requests_failed` exceeds the stored `requests_total`, the
stored `requests_success` is negative. -/
theorem insertMetrics_success_derivation (nowUTC : Int) (rec : MetricsRecord)
    (hs : rec.requestsSuccess = 0)
    (hf : 0 ≤ rec.requestsFailed) (hbf : rec.requestsFailed < 2 ^ 63)
    (ht : 0 ≤ rec.requestsTotal) (hbt : rec.requestsTotal < 2 ^ 63)
    (hpos : 0 < (insertMetricsNormalize nowUTC rec).requestsTotal) :
    (insertMetricsNormalize nowUTC rec).requestsSuccess =
        (insertMetricsNormalize nowUTC rec).requestsTotal -
          (insertMetricsNormalize nowUTC rec).requestsFailed ∧
      ((insertMetricsNormalize nowUTC rec).requestsFailed >
          (insertMetricsNormalize nowUTC rec).requestsTotal →
        (insertMetricsNormalize nowUTC rec).requestsSuccess < 0) := by
  unfold insertMetricsNormalize wrap64 at *
  dsimp only at *
  split_ifs at * with h1 h2 h3 h4 h5 <;> simp_all <;> omega

/-- C8 witness: the record `{total=1, success=0, failed=5}` is stored with
`requests_success = 1 − 5 = −4 < 0`. -/
theorem insertMetrics_success_derivation_witness :
    (insertMetricsNormalize 7 { c1Violator with
        requestsTotal := 1, requestsSuccess := 0, requestsFailed := 5 }).requestsSuccess =
        (insertMetricsNormalize 7 { c1Violator with
          requestsTotal := 1, requestsSuccess := 0, requestsFailed := 5 }).requestsTotal -
          (insertMetricsNormalize 7 { c1Violator with
            requestsTotal := 1, requestsSuccess := 0, requestsFailed := 5 }).requestsFailed ∧
      ((insertMetricsNormalize 7 { c1Violator with
          requestsTotal := 1, requestsSuccess := 0, requestsFailed := 5 }).requestsFailed >
          (insertMetricsNormalize 7 { c1Violator with
            requestsTotal := 1, requestsSuccess := 0, requestsFailed := 5 }).requestsTotal →
        (insertMetricsNormalize 7 { c1Violator with
          requestsTotal := 1, requestsSuccess := 0, requestsFailed := 5 }).requestsSuccess < 0) :=
  insertMetrics_success_derivation 7 _ (by decide) (by decide) (by decide)
    (by decide) (by decide) (by decide)

/-! ## Metrics scheduler (`internal/proxy/api_health_history.go`)

Instants are seconds since the Unix epoch (UTC); durations are seconds
(the source's nanosecond `time.Duration` values scaled).  Go's time model has
no leap seconds, so every UTC civil day is exactly 86400 s and
`time.Date(Y, M, D, 2, 0, 0, 0, time.UTC)` for `now`'s date equals
`(now / 86400) * 86400 + 2*3600`. -/

def defaultCleanupInterval : Int := 24 * 3600

def cleanupHour : Nat := 2

/-- `nextCleanupDelay` (`api_health_history.go:461-473`): delay until the
cleanup loop's first fire. -/
def nextCleanupDelay (cleanupInterval : Int) (now : Nat) : Int :=
  if cleanupInterval ≥ 20 * 3600 then
    let next : Nat := (now / 86400) * 86400 + cleanupHour * 3600
    let next : Nat := if ¬ decide (next > now) then next + 24 * 3600 else next
    (next : Int) - (now : Int)
  else if cleanupInterval ≤ 0 then defaultCleanupInterval
  else cleanupInterval

/-- `Start` (`api_health_history.go:311-326`) replaces a non-positive
configured cleanup interval by the default before the cleanup loop runs, so
`cleanupLoop` always calls `nextCleanupDelay` with the result of this
normalization. -/
def startCleanupInterval (c : Int) : Int :=
  if c ≤ 0 then defaultCleanupInterval else c

/-- Stated from the claim's words: 02:00 UTC of `now`'s current day. -/
def twoAMTodayUTC (now : Nat) : Nat := (now / 86400) * 86400 + 2 * 3600

/-- Stated from the claim's words: the instant of the scheduler's first
cleanup fire — 02:00 UTC of the current day, or 02:00 UTC of the next day if
that instant is not after `now`. -/
def firstCleanupFire (now : Nat) : Nat :=
  if twoAMTodayUTC now > now then twoAMTodayUTC now else twoAMTodayUTC now + 24 * 3600

/-- C7: for every current time `now` and configured interval: when the
(`Start`-normalized) cleanup interval is ≥ 20 h, the first cleanup fires at
02:00 UTC of the current day, or of the next day if that instant is not after
`now` (the delay is fire-instant minus `now`); otherwise the delay equals the
configured cleanup interval. -/
theorem nextCleanupDelay_spec (cfg : Int) (now : Nat) :
    nextCleanupDelay (startCleanupInterval cfg) now =
      if startCleanupInterval cfg ≥ 20 * 3600 then
        (firstCleanupFire now : Int) - (now : Int)
      else startCleanupInterval cfg := by
  unfold nextCleanupDelay startCleanupInterval firstCleanupFire twoAMTodayUTC
    defaultCleanupInterval cleanupHour
  split_ifs <;> simp_all

/-! ## Retention (`CleanupMetrics`, `internal/store/metrics.go:177-212`)

Durations in seconds (Go's nanosecond `time.Duration` scaled).  For the
hourly/daily/monthly tables the `timestamp` field plays the role of the
`bucket_start` column. -/

def retentionRaw : Int := 7 * 24 * 3600

def retentionHourly : Int := 30 * 24 * 3600

def retentionDaily : Int := 365 * 24 * 3600

structure MetricsTables where
  raw : List MetricsRecord
  hourly : List MetricsRecord
  daily : List MetricsRecord
  monthly : List MetricsRecord
  deriving DecidableEq, Repr

/-- The account filter argument of `CleanupMetrics`
(`metrics.go:181-184`): empty means no tenant filter, otherwise the
normalized account. -/
def cleanupAccount (accountID : String) : String :=
  if accountID = "" then "" else normalizeAccount accountID

/-- `CleanupMetrics` defaults a zero `now` to the wall clock
(`metrics.go:178-180`). -/
def cleanupNow (now wallClock : Int) : Int :=
  if now = 0 then wallClock else now

/-- One `DELETE FROM tbl WHERE timecol < ? [AND account_id = ?]` statement:
the rows matching the predicate are removed; the `account_id` conjunct is
present only when `account` is nonempty. -/
def deleteOlderThan (account : String) (cutoff : Int) (rows : List MetricsRecord) :
    List MetricsRecord :=
  rows.filter fun r =>
    decide (¬ (r.timestamp < cutoff ∧ (account = "" ∨ r.accountID = account)))

/-- `CleanupMetrics`: runs one DELETE per table in the fixed order raw,
hourly, daily, returning at the first failure.  `dbFail i` injects a database
error into the `i`-th statement (a failed statement leaves its table
unchanged); `wallClock` resolves a zero `now`.  Returns
`(err = nil, table state)`. -/
def cleanupMetrics (dbFail : Nat → Bool) (accountID : String) (now wallClock : Int)
    (t : MetricsTables) : Bool × MetricsTables :=
  let nowR := cleanupNow now wallClock
  let account := cleanupAccount accountID
  if dbFail 0 then (false, t) else
  let t1 := { t with raw := deleteOlderThan account (nowR - retentionRaw) t.raw }
  if dbFail 1 then (false, t1) else
  let t2 := { t1 with hourly := deleteOlderThan account (nowR - retentionHourly) t1.hourly }
  if dbFail 2 then (false, t2) else
  let t3 := { t2 with daily := deleteOlderThan account (nowR - retentionDaily) t2.daily }
  (true, t3)

theorem not_old_of_mem_deleteOlderThan {account : String} {cutoff : Int}
    {rows : List MetricsRecord} {r : MetricsRecord}
    (h : r ∈ deleteOlderThan account cutoff rows)
    (hacct : account = "" ∨ r.accountID = account) : ¬ r.timestamp < cutoff := by
  unfold deleteOlderThan at h
  rw [List.mem_filter, decide_eq_true_iff] at h
  exact fun hts => h.2 ⟨hts, hacct⟩

theorem cleanupMetrics_success_state (dbFail : Nat → Bool) (accountID : String)
    (now wallClock : Int) (t : MetricsTables)
    (h0 : dbFail 0 = false) (h1 : dbFail 1 = false) (h2 : dbFail 2 = false) :
    cleanupMetrics dbFail accountID now wallClock t =
      (true,
        { raw := deleteOlderThan (cleanupAccount accountID)
            (cleanupNow now wallClock - retentionRaw) t.raw
          hourly := deleteOlderThan (cleanupAccount accountID)
            (cleanupNow now wallClock - retentionHourly) t.hourly
          daily := deleteOlderThan (cleanupAccount accountID)
            (cleanupNow now wallClock - retentionDaily) t.daily
          monthly := t.monthly }) := by
  simp [cleanupMetrics, h0, h1, h2]

theorem cleanupMetrics_fst_true (dbFail : Nat → Bool) (accountID : String)
    (now wallClock : Int) (t : MetricsTables)
    (hok : (cleanupMetrics dbFail accountID now wallClock t).1 = true) :
    dbFail 0 = false ∧ dbFail 1 = false ∧ dbFail 2 = false := by
  unfold cleanupMetrics at hok
  dsimp only at hok
  split_ifs at hok <;> simp_all

/-- A raw row belonging to account `"b"`, far older than the raw retention
cutoff. -/
def c6StaleRow : MetricsRecord := { c1Violator with accountID := "b", timestamp := 0 }

def c6Tables : MetricsTables :=
  { raw := [c6StaleRow], hourly := [], daily := [], monthly := [] }

/-- C6 (counterexample): `CleanupMetrics("a", now)` succeeds yet a raw row of
account `"b"` with `ts < now − 7d` survives, because the tenant filter
restricts every DELETE to account `"a"`. -/
theorem cleanupMetrics_retention_counterexample :
    (cleanupMetrics (fun _ => false) "a" 1000000000 0 c6Tables).1 = true ∧
      ∃ r ∈ (cleanupMetrics (fun _ => false) "a" 1000000000 0 c6Tables).2.raw,
        r.timestamp < 1000000000 - retentionRaw := by
  decide

/-- C6 (amended): after `CleanupMetrics(accountID, now)` returns successfully,
no raw row *matched by the tenant filter* (every row when `accountID` is
empty, rows of the normalized account otherwise) has `ts < now − 7d`, likewise
no matched hourly row has `bucket_start < now − 30d` and no matched daily row
has `bucket_start < now − 365d`; monthly rows are never deleted. -/
theorem cleanupMetrics_retention (dbFail : Nat → Bool) (accountID : String)
    (now wallClock : Int) (t : MetricsTables)
    (hok : (cleanupMetrics dbFail accountID now wallClock t).1 = true) :
    (∀ r ∈ (cleanupMetrics dbFail accountID now wallClock t).2.raw,
        (cleanupAccount accountID = "" ∨ r.accountID = cleanupAccount accountID) →
        ¬ r.timestamp < cleanupNow now wallClock - retentionRaw) ∧
      (∀ r ∈ (cleanupMetrics dbFail accountID now wallClock t).2.hourly,
        (cleanupAccount accountID = "" ∨ r.accountID = cleanupAccount accountID) →
        ¬ r.timestamp < cleanupNow now wallClock - retentionHourly) ∧
      (∀ r ∈ (cleanupMetrics dbFail accountID now wallClock t).2.daily,
        (cleanupAccount accountID = "" ∨ r.accountID = cleanupAccount accountID) →
        ¬ r.timestamp < cleanupNow now wallClock - retentionDaily) ∧
      (cleanupMetrics dbFail accountID now wallClock t).2.monthly = t.monthly := by
  obtain ⟨h0, h1, h2⟩ :=
    cleanupMetrics_fst_true dbFail accountID now wallClock t hok
  rw [cleanupMetrics_success_state dbFail accountID now wallClock t h0 h1 h2]
  refine ⟨?_, ?_, ?_, rfl⟩ <;>
    exact fun r hr hacct => not_old_of_mem_deleteOlderThan hr hacct

/-- C6 witness: a successful tenant-filtered cleanup of a concrete state —
surviving rows matched by the filter respect the cutoffs and the monthly
table is untouched. -/
theorem cleanupMetrics_retention_witness :
    (∀ r ∈ (cleanupMetrics (fun _ => false) "a" 1000000000 0 c6Tables).2.raw,
        (cleanupAccount "a" = "" ∨ r.accountID = cleanupAccount "a") →
        ¬ r.timestamp < cleanupNow 1000000000 0 - retentionRaw) ∧
      (∀ r ∈ (cleanupMetrics (fun _ => false) "a" 1000000000 0 c6Tables).2.hourly,
        (cleanupAccount "a" = "" ∨ r.accountID = cleanupAccount "a") →
        ¬ r.timestamp < cleanupNow 1000000000 0 - retentionHourly) ∧
      (∀ r ∈ (cleanupMetrics (fun _ => false) "a" 1000000000 0 c6Tables).2.daily,
        (cleanupAccount "a" = "" ∨ r.accountID = cleanupAccount "a") →
        ¬ r.timestamp < cleanupNow 1000000000 0 - retentionDaily) ∧
      (cleanupMetrics (fun _ => false) "a" 1000000000 0 c6Tables).2.monthly =
        c6Tables.monthly :=
  cleanupMetrics_retention (fun _ => false) "a" 1000000000 0 c6Tables (by decide)

/-- C10: `CleanupMetrics` processes raw, hourly, daily in that fixed order and
returns at the first database error; deletions executed on earlier tables are
kept (no rollback), later tables are untouched, so on error exactly a prefix
of the tables has been cleaned. -/
theorem cleanupMetrics_error_stops_early (dbFail : Nat → Bool) (accountID : String)
    (now wallClock : Int) (t : MetricsTables) :
    (dbFail 0 = true → cleanupMetrics dbFail accountID now wallClock t = (false, t)) ∧
      (dbFail 0 = false → dbFail 1 = true →
        cleanupMetrics dbFail accountID now wallClock t =
          (false, { t with
                    raw := deleteOlderThan (cleanupAccount accountID)
                        (cleanupNow now wallClock - retentionRaw) t.raw })) ∧
      (dbFail 0 = false → dbFail 1 = false → dbFail 2 = true →
        cleanupMetrics dbFail accountID now wallClock t =
          (false, { t with
                    raw := deleteOlderThan (cleanupAccount accountID)
                        (cleanupNow now wallClock - retentionRaw) t.raw
                    hourly := deleteOlderThan (cleanupAccount accountID)
                        (cleanupNow now wallClock - retentionHourly) t.hourly })) ∧
      (dbFail 0 = false → dbFail 1 = false → dbFail 2 = false →
        cleanupMetrics dbFail accountID now wallClock t =
          (true, { t with
                   raw := deleteOlderThan (cleanupAccount accountID)
                       (cleanupNow now wallClock - retentionRaw) t.raw
                   hourly := deleteOlderThan (cleanupAccount accountID)
                       (cleanupNow now wallClock - retentionHourly) t.hourly
                   daily := deleteOlderThan (cleanupAccount accountID)
                       (cleanupNow now wallClock - retentionDaily) t.daily })) := by
  refine ⟨?_, ?_, ?_, ?_⟩ <;> intros <;> simp_all [cleanupMetrics]

/-- C10 witness: the second DELETE fails — the raw table is already cleaned
and stays cleaned, while hourly and daily are untouched. -/
theorem cleanupMetrics_error_stops_early_witness :
    cleanupMetrics (fun i => decide (i = 1)) "" 1000000000 0 c6Tables =
      (false, { c6Tables with
                raw := deleteOlderThan (cleanupAccount "")
                    (cleanupNow 1000000000 0 - retentionRaw) c6Tables.raw }) :=
  (cleanupMetrics_error_stops_early (fun i => decide (i = 1)) "" 1000000000 0
      c6Tables).2.1 (by decide) (by decide)

/-! ## Rollup (`AggregateMetrics`, `internal/store/metrics.go:129-174`)

The destination table of a rollup has a unique key on
`(account_id, node_id, bucket_start)`, so it is modelled as a partial map from
that key to the counter columns.  Source-time values (`ts` / `bucket_start`)
are SQL `DATETIME`s: civil calendar fields compared lexicographically, which
is what the bucket expressions `DATE_FORMAT(ts, '%Y-%m-%d %H:00:00')`,
`DATE(bucket_start)` and `DATE_FORMAT(bucket_start, '%Y-%m-01 00:00:00')`
operate on. -/

structure DateTime where
  year : Nat
  month : Nat
  day : Nat
  hour : Nat
  minute : Nat
  second : Nat
  deriving DecidableEq, Repr

/-- SQL `DATETIME` strict comparison: lexicographic on calendar fields. -/
def DateTime.ltb (a b : DateTime) : Bool :=
  if a.year ≠ b.year then decide (a.year < b.year)
  else if a.month ≠ b.month then decide (a.month < b.month)
  else if a.day ≠ b.day then decide (a.day < b.day)
  else if a.hour ≠ b.hour then decide (a.hour < b.hour)
  else if a.minute ≠ b.minute then decide (a.minute < b.minute)
  else decide (a.second < b.second)

/-- SQL `DATETIME` `<=`: the negation of the reversed strict comparison. -/
def DateTime.leb (a b : DateTime) : Bool := ! DateTime.ltb b a

/-- `DATE_FORMAT(ts, '%Y-%m-%d %H:00:00')`: truncate to the hour. -/
def hourBucket (t : DateTime) : DateTime := { t with minute := 0, second := 0 }

/-- `DATE(bucket_start)`: truncate to midnight of the day. -/
def dayBucket (t : DateTime) : DateTime :=
  { t with hour := 0, minute := 0, second := 0 }

/-- `DATE_FORMAT(bucket_start, '%Y-%m-01 00:00:00')`: first of the month. -/
def monthBucket (t : DateTime) : DateTime :=
  { t with day := 1, hour := 0, minute := 0, second := 0 }

inductive Granularity
  | raw
  | hourly
  | daily
  | monthly
  deriving DecidableEq, Repr

/-- `aggregationPlan` (`metrics.go:231-242`): the bucket expression for each
target granularity.  The source/destination table names it also returns are
represented by the `src` list and destination map arguments of
`aggregateMetrics`; `none` models the unsupported-target error, on which
`AggregateMetrics` returns before touching the database. -/
def aggregationPlan : Granularity → Option (DateTime → DateTime)
  | .hourly => some hourBucket
  | .daily => some dayBucket
  | .monthly => some monthBucket
  | .raw => none

/-- The ten summed counter columns of a metrics table. -/
structure Counters where
  requestsTotal : Int
  requestsSuccess : Int
  requestsFailed : Int
  responseTimeSumMs : Int
  responseTimeCount : Int
  bytesTotal : Int
  inputTokensTotal : Int
  outputTokensTotal : Int
  firstByteTimeSumMs : Int
  streamDurationSumMs : Int
  deriving DecidableEq, Repr

def Counters.zero : Counters := ⟨0, 0, 0, 0, 0, 0, 0, 0, 0, 0⟩

def Counters.add (a b : Counters) : Counters :=
  ⟨a.requestsTotal + b.requestsTotal, a.requestsSuccess + b.requestsSuccess,
    a.requestsFailed + b.requestsFailed, a.responseTimeSumMs + b.responseTimeSumMs,
    a.responseTimeCount + b.responseTimeCount, a.bytesTotal + b.bytesTotal,
    a.inputTokensTotal + b.inputTokensTotal, a.outputTokensTotal + b.outputTokensTotal,
    a.firstByteTimeSumMs + b.firstByteTimeSumMs,
    a.streamDurationSumMs + b.streamDurationSumMs⟩

/-- A row of the rollup's source table. -/
structure SrcRow where
  accountID : String
  nodeID : String
  time : DateTime
  counters : Counters
  deriving DecidableEq, Repr

abbrev BucketKey := String × String × DateTime

/-- The `WHERE %s >= ? AND %s < ? [AND account_id = ?]` predicate of the
aggregation SELECT (`metrics.go:157-163`). -/
def srcInWindow (accountID : String) (tFrom tTo : DateTime) (r : SrcRow) : Bool :=
  DateTime.leb tFrom r.time && DateTime.ltb r.time tTo &&
    (accountID == "" || r.accountID == normalizeAccount accountID)

/-- The `GROUP BY account_id, node_id, bucket_start` key of a source row. -/
def rowKey (bucket : DateTime → DateTime) (r : SrcRow) : BucketKey :=
  (r.accountID, r.nodeID, bucket r.time)

/-- The keys produced by the grouped SELECT over the window. -/
def groupKeys (bucket : DateTime → DateTime) (accountID : String)
    (tFrom tTo : DateTime) (src : List SrcRow) : List BucketKey :=
  (src.filter (srcInWindow accountID tFrom tTo)).map (rowKey bucket)

/-- `SUM(...)` of every counter column over the group of key `k`. -/
def groupSum (bucket : DateTime → DateTime) (accountID : String)
    (tFrom tTo : DateTime) (src : List SrcRow) (k : BucketKey) : Counters :=
  ((src.filter (srcInWindow accountID tFrom tTo)).filter
      (fun r => decide (rowKey bucket r = k))).foldl
    (fun acc r => acc.add r.counters) Counters.zero

/-- `AggregateMetrics`: the `INSERT ... SELECT ... GROUP BY ...
ON DUPLICATE KEY UPDATE col = VALUES(col)` statement.  Every key produced by
the grouped SELECT has its destination row set to the freshly summed counters
— inserted if absent, all counter columns overwritten if present — and every
other destination row is unchanged.  An unsupported target granularity is an
error returned before the statement runs (destination unchanged). -/
def aggregateMetrics (target : Granularity) (accountID : String)
    (tFrom tTo : DateTime) (src : List SrcRow)
    (dst : BucketKey → Option Counters) : BucketKey → Option Counters :=
  match aggregationPlan target with
  | none => dst
  | some bucket => fun k =>
      if k ∈ groupKeys bucket accountID tFrom tTo src then
        some (groupSum bucket accountID tFrom tTo src k)
      else dst k

/-- C2: for fixed source-table contents and a fixed window `[from, to)`,
running `AggregateMetrics` twice leaves the destination in the same state as
running it once; moreover the value written at a grouped key is independent
of the prior destination contents — on key conflict the destination row is
overwritten with the re-summed totals, not incremented. -/
theorem aggregateMetrics_idempotent (target : Granularity) (accountID : String)
    (tFrom tTo : DateTime) (src : List SrcRow) (dst : BucketKey → Option Counters) :
    aggregateMetrics target accountID tFrom tTo src
        (aggregateMetrics target accountID tFrom tTo src dst) =
      aggregateMetrics target accountID tFrom tTo src dst ∧
    (∀ dst₁ dst₂ : BucketKey → Option Counters, ∀ k : BucketKey,
      ∀ bucket : DateTime → DateTime, aggregationPlan target = some bucket →
      k ∈ groupKeys bucket accountID tFrom tTo src →
      aggregateMetrics target accountID tFrom tTo src dst₁ k =
        aggregateMetrics target accountID tFrom tTo src dst₂ k) := by
  constructor
  · unfold aggregateMetrics
    cases h : aggregationPlan target with
    | none => rfl
    | some bucket =>
      funext k
      by_cases hk : k ∈ groupKeys bucket accountID tFrom tTo src <;> simp [hk]
  · intro dst₁ dst₂ k bucket hb hk
    unfold aggregateMetrics
    rw [hb]
    simp [hk]

def dtBucketA : DateTime := ⟨2025, 11, 25, 10, 0, 0⟩

def srcRowA : SrcRow :=
  ⟨"a1", "n1", ⟨2025, 11, 25, 10, 30, 0⟩,
    { Counters.zero with requestsTotal := 5 }⟩

/-- C2 witness: a raw→hourly rollup of one concrete row — the hourly row for
its bucket comes out the same whether the destination previously held nothing
or held stale counters. -/
theorem aggregateMetrics_idempotent_witness :
    aggregateMetrics .hourly "" ⟨2025, 11, 25, 10, 0, 0⟩ ⟨2025, 11, 25, 11, 0, 0⟩
        [srcRowA] (fun _ => none) ("a1", "n1", dtBucketA) =
      aggregateMetrics .hourly "" ⟨2025, 11, 25, 10, 0, 0⟩ ⟨2025, 11, 25, 11, 0, 0⟩
        [srcRowA] (fun _ => some { Counters.zero with requestsTotal := 999 })
        ("a1", "n1", dtBucketA) :=
  (aggregateMetrics_idempotent .hourly "" ⟨2025, 11, 25, 10, 0, 0⟩
      ⟨2025, 11, 25, 11, 0, 0⟩ [srcRowA] (fun _ => none)).2
    (fun _ => none) (fun _ => some { Counters.zero with requestsTotal := 999 })
    ("a1", "n1", dtBucketA) hourBucket rfl (by decide)

/-! ## Broadcast hub (`internal/proxy/ws_hub.go`)

The hub owns `clients : map[accountID]map[*WSClient]bool`.  A `WSClient`'s
Go pointer identity is modelled by `cid`; its buffered `send` channel is
modelled by the queue stored under `cid` in `Hub.queues` (the channel's
buffer), and `Hub.closed` records every `close(client.send)` performed —
one list entry per close call, so a double close is visible as a repeated
`cid`.  Maps are association lists accessed only through `lookupAssoc`.

The hub's `unregister` channel has capacity 10 (`ws_hub.go:43`) and its only
receiver is `Run` itself; `broadcastToAccount` (called from `Run`) sends on it
for each slow client (`ws_hub.go:113`), so once the fan-out has emitted more
unregisters than the channel holds, the send blocks the event-loop goroutine
forever.  `Hub.stuck` records that permanently-deadlocked state: a stuck hub
processes no further events.  The model takes the channel to be empty when a
broadcast begins (the serialized loop drains it between events; concurrent
senders could only lower the available capacity). -/

structure WSClient where
  cid : Nat
  accountID : String
  isShare : Bool
  deriving DecidableEq, Repr

structure WSMessage where
  accountID : String
  type : String
  payload : String
  deriving DecidableEq, Repr

/-- Capacity of a client's buffered `send` channel (`ws_client.go` callers
create it with 256; §4.F of the spec). -/
def sendCapacity : Nat := 256

structure Hub where
  clients : List (String × List WSClient)
  queues : List (Nat × List WSMessage)
  closed : List Nat
  stuck : Bool
  deriving DecidableEq, Repr

def emptyHub : Hub := ⟨[], [], [], false⟩

def lookupAssoc {α β : Type} [DecidableEq α] : List (α × β) → α → Option β
  | [], _ => none
  | (k, v) :: rest, a => if k = a then some v else lookupAssoc rest a

def setAssoc {α β : Type} [DecidableEq α] : List (α × β) → α → β → List (α × β)
  | [], a, v => [(a, v)]
  | (k, w) :: rest, a, v =>
    if k = a then (a, v) :: rest else (k, w) :: setAssoc rest a v

def eraseAssoc {α β : Type} [DecidableEq α] (l : List (α × β)) (a : α) :
    List (α × β) :=
  l.filter fun p => decide (p.1 ≠ a)

theorem lookupAssoc_mem {α β : Type} [DecidableEq α] {l : List (α × β)} {a : α}
    {v : β} (h : lookupAssoc l a = some v) : (a, v) ∈ l := by
  induction l with
  | nil => simp [lookupAssoc] at h
  | cons p rest ih =>
    obtain ⟨k, w⟩ := p
    unfold lookupAssoc at h
    split_ifs at h with hk
    · subst hk
      cases h
      exact List.mem_cons_self _ _
    · exact List.mem_cons_of_mem _ (ih h)

theorem mem_setAssoc {α β : Type} [DecidableEq α] {l : List (α × β)} {a : α}
    {v : β} {p : α × β} (h : p ∈ setAssoc l a v) : p = (a, v) ∨ p ∈ l := by
  induction l with
  | nil => simpa [setAssoc] using h
  | cons q rest ih =>
    obtain ⟨k, w⟩ := q
    unfold setAssoc at h
    split_ifs at h with hk
    · rcases List.mem_cons.mp h with h' | h'
      · exact Or.inl h'
      · exact Or.inr (List.mem_cons_of_mem _ h')
    · rcases List.mem_cons.mp h with h' | h'
      · exact Or.inr (h' ▸ List.mem_cons_self _ _)
      · rcases ih h' with h'' | h''
        · exact Or.inl h''
        · exact Or.inr (List.mem_cons_of_mem _ h'')

theorem mem_of_mem_eraseAssoc {α β : Type} [DecidableEq α] {l : List (α × β)}
    {a : α} {p : α × β} (h : p ∈ eraseAssoc l a) : p ∈ l :=
  List.mem_of_mem_filter h

theorem lookupAssoc_setAssoc_self {α β : Type} [DecidableEq α]
    (l : List (α × β)) (a : α) (v : β) : lookupAssoc (setAssoc l a v) a = some v := by
  induction l with
  | nil => simp [setAssoc, lookupAssoc]
  | cons q rest ih =>
    obtain ⟨k, w⟩ := q
    unfold setAssoc
    split_ifs with hk
    · simp [lookupAssoc]
    · simp [lookupAssoc, hk, ih]

theorem lookupAssoc_setAssoc_ne {α β : Type} [DecidableEq α]
    (l : List (α × β)) {a b : α} (v : β) (hab : b ≠ a) :
    lookupAssoc (setAssoc l a v) b = lookupAssoc l b := by
  have hab' : ¬ a = b := fun h => hab h.symm
  induction l with
  | nil => simp [setAssoc, lookupAssoc, hab']
  | cons q rest ih =>
    obtain ⟨k, w⟩ := q
    unfold setAssoc
    split_ifs with hk
    · subst hk
      simp [lookupAssoc, hab']
    · unfold lookupAssoc
      split_ifs with hk2
      · rfl
      · exact ih

theorem lookupAssoc_eraseAssoc_self {α β : Type} [DecidableEq α]
    (l : List (α × β)) (a : α) : lookupAssoc (eraseAssoc l a) a = none := by
  induction l with
  | nil => simp [eraseAssoc, lookupAssoc]
  | cons q rest ih =>
    obtain ⟨k, w⟩ := q
    by_cases hk : k = a
    · subst hk
      simpa [eraseAssoc, List.filter] using ih
    · simpa [eraseAssoc, List.filter, hk, lookupAssoc] using ih

theorem lookupAssoc_eraseAssoc_ne {α β : Type} [DecidableEq α]
    (l : List (α × β)) {a b : α} (hab : b ≠ a) :
    lookupAssoc (eraseAssoc l a) b = lookupAssoc l b := by
  have hab' : ¬ a = b := fun h => hab h.symm
  induction l with
  | nil => simp [eraseAssoc, lookupAssoc]
  | cons q rest ih =>
    obtain ⟨k, w⟩ := q
    by_cases hk : k = a
    · have hkb : ¬ k = b := by rw [hk]; exact hab'
      rw [show lookupAssoc ((k, w) :: rest) b = lookupAssoc rest b by
        simp [lookupAssoc, hkb]]
      simpa [eraseAssoc, List.filter, hk] using ih
    · by_cases hk2 : k = b
      · simp [eraseAssoc, List.filter, hk, lookupAssoc, hk2, hab]
      · rw [show lookupAssoc ((k, w) :: rest) b = lookupAssoc rest b by
          simp [lookupAssoc, hk2]]
        simpa [eraseAssoc, List.filter, hk, lookupAssoc, hk2] using ih

/-- `addClient` (`ws_hub.go:62-72`): create the account's set if absent and
put the client in it (idempotent, like a Go map set).  The Go nil-client
guard is invisible here since every modelled client is a value. -/
def addClient (h : Hub) (c : WSClient) : Hub :=
  let cur := (lookupAssoc h.clients c.accountID).getD []
  let cur := if c ∈ cur then cur else cur ++ [c]
  { h with clients := setAssoc h.clients c.accountID cur }

/-- `removeClient` (`ws_hub.go:74-89`): if the client is present under its
account, delete it, `close` its send channel (recorded in `closed`), and drop
the account entry when it becomes empty; otherwise do nothing. -/
def removeClient (h : Hub) (c : WSClient) : Hub :=
  match lookupAssoc h.clients c.accountID with
  | none => h
  | some l =>
    if c ∈ l then
      { h with
        clients :=
          if (l.erase c).isEmpty then eraseAssoc h.clients c.accountID
          else setAssoc h.clients c.accountID (l.erase c)
        closed := c.cid :: h.closed }
    else h

/-- Number of messages buffered in the client's `send` channel. -/
def queueLen (h : Hub) (cid : Nat) : Nat :=
  ((lookupAssoc h.queues cid).getD []).length

/-- A successful non-blocking `client.send <- data`. -/
def enqueue (h : Hub) (cid : Nat) (m : WSMessage) : Hub :=
  { h with
    queues := setAssoc h.queues cid (((lookupAssoc h.queues cid).getD []) ++ [m]) }

/-- Capacity of the hub's `unregister` channel (`ws_hub.go:43`). -/
def unregisterCap : Nat := 10

structure BroadcastResult where
  hub : Hub
  delivered : List (WSClient × WSMessage)
  evict : List WSClient
  blocked : Bool
  deriving Repr

/-- The loop body of `broadcastToAccount`'s fan-out (`ws_hub.go:108-115`):
a non-blocking send of the serialized message, falling through to
`h.unregister <- client` when the client's buffer is full.  That send honors
the unregister channel's capacity (`unregisterCap`): once `evict` already
holds `unregisterCap` clients the send blocks forever — `Run`, the only
receiver, is executing this very loop — so the fan-out (and the whole hub)
is stuck and later iterations do nothing. -/
def broadcastStep (m : WSMessage) (acc : BroadcastResult) (c : WSClient) :
    BroadcastResult :=
  if acc.blocked then acc
  else if queueLen acc.hub c.cid < sendCapacity then
    { acc with
      hub := enqueue acc.hub c.cid m
      delivered := acc.delivered ++ [(c, m)] }
  else if acc.evict.length < unregisterCap then
    { acc with evict := acc.evict ++ [c] }
  else { acc with blocked := true }

/-- `broadcastToAccount` (`ws_hub.go:91-116`): snapshot the account's client
set, serialize the message once (`delivered` records each successful enqueue
of the serialized message), and for each client attempt a non-blocking send;
on a full buffer the client is pushed onto the hub's `unregister` channel
(`evict`) instead; the send deadlocks the loop (`blocked`) when the channel
is already full. -/
def broadcastToAccount (h : Hub) (m : WSMessage) : BroadcastResult :=
  ((lookupAssoc h.clients m.accountID).getD []).foldl (broadcastStep m)
    ⟨h, [], [], false⟩

inductive HubEvent
  | register (c : WSClient)
  | unregister (c : WSClient)
  | broadcast (m : WSMessage)
  deriving DecidableEq, Repr

/-- One iteration of `Run`'s select loop (`ws_hub.go:49-60`).  When the
fan-out of a broadcast stayed within the unregister channel's capacity, `Run`
drains those `unregister` sends in its next iterations (before any further
external event, the channels being served by the same loop), removing the
evicted clients; when the fan-out overflowed the channel, `Run` is blocked
forever inside `broadcastToAccount` — the hub becomes `stuck`, the buffered
evictions are never received, and no later event is ever processed. -/
def hubStep (h : Hub) (e : HubEvent) : Hub × List (WSClient × WSMessage) :=
  if h.stuck then (h, [])
  else
    match e with
    | .register c => (addClient h c, [])
    | .unregister c => (removeClient h c, [])
    | .broadcast m =>
      let r := broadcastToAccount h m
      if r.blocked then ({ r.hub with stuck := true }, r.delivered)
      else (r.evict.foldl removeClient r.hub, r.delivered)

/-- `Run` over a whole event sequence, collecting every delivery. -/
def hubRun (h : Hub) : List HubEvent → Hub × List (WSClient × WSMessage)
  | [] => (h, [])
  | e :: es =>
    ((hubRun (hubStep h e).1 es).1, (hubStep h e).2 ++ (hubRun (hubStep h e).1 es).2)

/-- Every client stored under an account key has that account as its own. -/
def clientsConsistent (h : Hub) : Prop :=
  ∀ p ∈ h.clients, ∀ c ∈ p.2, c.accountID = p.1

instance (h : Hub) : Decidable (clientsConsistent h) :=
  inferInstanceAs (Decidable (∀ p ∈ h.clients, ∀ c ∈ p.2, c.accountID = p.1))

theorem clientsConsistent_addClient {h : Hub} (hc : clientsConsistent h)
    (c : WSClient) : clientsConsistent (addClient h c) := by
  intro p hp c' hc'
  rcases mem_setAssoc hp with rfl | hp'
  · dsimp at hc'
    have hsub : ∀ x : WSClient,
        x ∈ (lookupAssoc h.clients c.accountID).getD [] → x.accountID = c.accountID := by
      intro x hx
      cases hl : lookupAssoc h.clients c.accountID with
      | none => simp [hl] at hx
      | some l =>
        rw [hl] at hx
        exact hc _ (lookupAssoc_mem hl) x hx
    split_ifs at hc' with hmem
    · exact hsub c' hc'
    · rcases List.mem_append.mp hc' with hx | hx
      · exact hsub c' hx
      · simp at hx
        subst hx
        rfl
  · exact hc p hp' c' hc'

theorem clientsConsistent_removeClient {h : Hub} (hc : clientsConsistent h)
    (c : WSClient) : clientsConsistent (removeClient h c) := by
  unfold removeClient
  cases hl : lookupAssoc h.clients c.accountID with
  | none => exact hc
  | some l =>
    dsimp only
    split_ifs with hmem hemp
    · intro p hp c' hc'
      exact hc p (mem_of_mem_eraseAssoc hp) c' hc'
    · intro p hp c' hc'
      rcases mem_setAssoc hp with rfl | hp'
      · exact hc _ (lookupAssoc_mem hl) c' (List.erase_subset _ _ hc')
      · exact hc p hp' c' hc'
    · exact hc

theorem broadcastFold_hub_clients (m : WSMessage) (l : List WSClient)
    (acc : BroadcastResult) :
    (l.foldl (broadcastStep m) acc).hub.clients = acc.hub.clients := by
  induction l generalizing acc with
  | nil => rfl
  | cons c rest ih =>
    rw [List.foldl_cons, ih]
    unfold broadcastStep enqueue
    split_ifs <;> rfl

theorem broadcastFold_hub_closed (m : WSMessage) (l : List WSClient)
    (acc : BroadcastResult) :
    (l.foldl (broadcastStep m) acc).hub.closed = acc.hub.closed := by
  induction l generalizing acc with
  | nil => rfl
  | cons c rest ih =>
    rw [List.foldl_cons, ih]
    unfold broadcastStep enqueue
    split_ifs <;> rfl

theorem broadcastFold_delivered_sound (m : WSMessage) (l : List WSClient)
    (acc : BroadcastResult) :
    ∀ p ∈ (l.foldl (broadcastStep m) acc).delivered,
      p ∈ acc.delivered ∨ (p.2 = m ∧ p.1 ∈ l) := by
  induction l generalizing acc with
  | nil =>
    intro p hp
    exact Or.inl hp
  | cons c rest ih =>
    intro p hp
    rw [List.foldl_cons] at hp
    rcases ih (broadcastStep m acc c) p hp with h1 | h2
    · unfold broadcastStep at h1
      split_ifs at h1
      · exact Or.inl h1
      · dsimp at h1
        rcases List.mem_append.mp h1 with ha | hb
        · exact Or.inl ha
        · simp at hb
          subst hb
          exact Or.inr ⟨rfl, List.mem_cons_self _ _⟩
      · exact Or.inl h1
      · exact Or.inl h1
    · exact Or.inr ⟨h2.1, List.mem_cons_of_mem _ h2.2⟩

theorem clientsConsistent_foldl_removeClient {h : Hub} (hc : clientsConsistent h)
    (l : List WSClient) : clientsConsistent (l.foldl removeClient h) := by
  induction l generalizing h with
  | nil => exact hc
  | cons c rest ih =>
    rw [List.foldl_cons]
    exact ih (clientsConsistent_removeClient hc c)

theorem clientsConsistent_of_clients_eq {h h' : Hub} (he : h'.clients = h.clients)
    (hc : clientsConsistent h) : clientsConsistent h' := by
  unfold clientsConsistent at *
  rw [he]
  exact hc

theorem clientsConsistent_broadcast {h : Hub} (hc : clientsConsistent h)
    (m : WSMessage) : clientsConsistent (broadcastToAccount h m).hub := by
  unfold clientsConsistent
  rw [show (broadcastToAccount h m).hub.clients = h.clients from
    broadcastFold_hub_clients m _ _]
  exact hc

theorem hubStep_consistent {h : Hub} (hc : clientsConsistent h) (e : HubEvent) :
    clientsConsistent (hubStep h e).1 := by
  unfold hubStep
  split_ifs with hstuck
  · exact hc
  · cases e with
    | register c => exact clientsConsistent_addClient hc c
    | unregister c => exact clientsConsistent_removeClient hc c
    | broadcast m =>
      dsimp only
      split_ifs with hb
      · exact clientsConsistent_of_clients_eq
          (show ({ (broadcastToAccount h m).hub with stuck := true }).clients =
              h.clients from broadcastFold_hub_clients m _ _) hc
      · exact clientsConsistent_foldl_removeClient
          (clientsConsistent_broadcast hc m) _

theorem hubStep_delivered_sound {h : Hub} (hc : clientsConsistent h) (e : HubEvent) :
    ∀ p ∈ (hubStep h e).2, p.2.accountID = p.1.accountID := by
  intro p hp
  unfold hubStep at hp
  split_ifs at hp with hstuck
  · simp at hp
  · cases e with
    | register c => simp at hp
    | unregister c => simp at hp
    | broadcast m =>
    dsimp only at hp
    have hdel : p ∈ (broadcastToAccount h m).delivered := by
      split_ifs at hp <;> exact hp
    have hs := broadcastFold_delivered_sound m
      ((lookupAssoc h.clients m.accountID).getD []) ⟨h, [], [], false⟩ p hdel
    rcases hs with h1 | ⟨hm, hmem⟩
    · simp at h1
    · cases hl : lookupAssoc h.clients m.accountID with
      | none => rw [hl] at hmem; simp at hmem
      | some l =>
        rw [hl] at hmem
        simp only [Option.getD_some] at hmem
        rw [hm, hc _ (lookupAssoc_mem hl) p.1 hmem]

theorem hubRun_delivered_sound {h : Hub} (hc : clientsConsistent h)
    (es : List HubEvent) :
    ∀ p ∈ (hubRun h es).2, p.2.accountID = p.1.accountID := by
  induction es generalizing h with
  | nil => intro p hp; simp [hubRun] at hp
  | cons e rest ih =>
    intro p hp
    unfold hubRun at hp
    rcases List.mem_append.mp hp with h1 | h2
    · exact hubStep_delivered_sound hc e p h1
    · exact ih (hubStep_consistent hc e) p h2

/-- C3: starting from the empty hub, for every sequence of register,
unregister, and broadcast events, every message delivered to a client's send
channel carries the account of that client — a client registered under
account `A` is never delivered a message whose `account_id` differs from `A`. -/
theorem hub_tenant_isolation (es : List HubEvent) (c : WSClient) (m : WSMessage)
    (hd : (c, m) ∈ (hubRun emptyHub es).2) : m.accountID = c.accountID :=
  hubRun_delivered_sound (fun p hp => absurd hp (by simp [emptyHub])) es (c, m) hd

def cA : WSClient := ⟨1, "a1", false⟩

def mA : WSMessage := ⟨"a1", "node_status", "x"⟩

/-- C3 witness: registering a client of account `"a1"` and broadcasting to
`"a1"` delivers the message to it, and the tags agree. -/
theorem hub_tenant_isolation_witness :
    (cA, mA) ∈ (hubRun emptyHub [.register cA, .broadcast mA]).2 ∧
      mA.accountID = cA.accountID :=
  ⟨by decide, hub_tenant_isolation [.register cA, .broadcast mA] cA mA (by decide)⟩

/-- Go's `h.clients[c.accountID]` contains `c`: the presence test of
`removeClient` (a missing account entry behaves as the empty set). -/
def clientRegistered (h : Hub) (c : WSClient) : Prop :=
  c ∈ (lookupAssoc h.clients c.accountID).getD []

instance (h : Hub) (c : WSClient) : Decidable (clientRegistered h c) :=
  inferInstanceAs (Decidable (c ∈ _))

theorem removeClient_not_registered {h : Hub} {c : WSClient}
    (hn : ¬ clientRegistered h c) : removeClient h c = h := by
  unfold clientRegistered at hn
  unfold removeClient
  cases hl : lookupAssoc h.clients c.accountID with
  | none => rfl
  | some l =>
    dsimp only
    rw [if_neg]
    intro hmem
    exact hn (by rw [hl]; exact hmem)

theorem removeClient_closed_of_registered {h : Hub} {c : WSClient}
    (hr : clientRegistered h c) : (removeClient h c).closed = c.cid :: h.closed := by
  unfold clientRegistered at hr
  unfold removeClient
  cases hl : lookupAssoc h.clients c.accountID with
  | none => rw [hl] at hr; simp at hr
  | some l =>
    rw [hl] at hr
    simp only [Option.getD_some] at hr
    dsimp only
    rw [if_pos hr]

theorem removeClient_unregisters {h : Hub} {c : WSClient}
    (hr : clientRegistered h c)
    (hnd : ((lookupAssoc h.clients c.accountID).getD []).Nodup) :
    ¬ clientRegistered (removeClient h c) c := by
  unfold clientRegistered at *
  unfold removeClient
  cases hl : lookupAssoc h.clients c.accountID with
  | none => rw [hl] at hr; simp at hr
  | some l =>
    rw [hl] at hr hnd
    simp only [Option.getD_some] at hr hnd
    dsimp only
    rw [if_pos hr]
    dsimp only
    split_ifs with hemp
    · rw [lookupAssoc_eraseAssoc_self]
      simp
    · rw [lookupAssoc_setAssoc_self]
      simp only [Option.getD_some]
      intro hmem
      exact absurd (((hnd.mem_erase_iff).mp hmem).1 rfl) not_false

/-- `n` deliveries of `unregister` for the same client, processed in order by
`Run`'s loop. -/
def removeClientN (h : Hub) (c : WSClient) : Nat → Hub
  | 0 => h
  | n + 1 => removeClientN (removeClient h c) c n

theorem removeClientN_not_registered {h : Hub} {c : WSClient}
    (hn : ¬ clientRegistered h c) : ∀ n, removeClientN h c n = h := by
  intro n
  induction n generalizing h with
  | zero => rfl
  | succ k ih =>
    show removeClientN (removeClient h c) c k = h
    rw [removeClient_not_registered hn]
    exact ih hn

/-- C9: `removeClient` is a no-op when the client is not present in the hub's
clients map; consequently, from any state whose account entry is duplicate-free
and where the client's channel has not yet been closed, delivering `unregister`
for the same client any number of times closes its send channel at most once —
a double-close panic is unreachable. -/
theorem removeClient_no_double_close (h : Hub) (c : WSClient) (n : Nat)
    (hnd : ((lookupAssoc h.clients c.accountID).getD []).Nodup)
    (hcnt : List.count c.cid h.closed = 0) :
    (¬ clientRegistered h c → removeClient h c = h) ∧
      List.count c.cid (removeClientN h c n).closed ≤ 1 := by
  refine ⟨removeClient_not_registered, ?_⟩
  by_cases hr : clientRegistered h c
  · cases n with
    | zero => simp [removeClientN, hcnt]
    | succ k =>
      show List.count c.cid (removeClientN (removeClient h c) c k).closed ≤ 1
      rw [removeClientN_not_registered (removeClient_unregisters hr hnd) k,
        removeClient_closed_of_registered hr, List.count_cons_self, hcnt]
  · rw [removeClientN_not_registered hr n, hcnt]
    exact Nat.zero_le 1

/-- C9 witness: a hub holding one registered client; three `unregister`
deliveries close its channel exactly once. -/
theorem removeClient_no_double_close_witness :
    (¬ clientRegistered (addClient emptyHub cA) cA →
        removeClient (addClient emptyHub cA) cA = addClient emptyHub cA) ∧
      List.count cA.cid (removeClientN (addClient emptyHub cA) cA 3).closed ≤ 1 :=
  removeClient_no_double_close (addClient emptyHub cA) cA 3 (by decide) (by decide)

theorem broadcastFold_queues_untouched (m : WSMessage) (l : List WSClient)
    (acc : BroadcastResult) {cid : Nat} (hn : cid ∉ l.map WSClient.cid) :
    lookupAssoc (l.foldl (broadcastStep m) acc).hub.queues cid =
      lookupAssoc acc.hub.queues cid := by
  induction l generalizing acc with
  | nil => rfl
  | cons c rest ih =>
    simp only [List.map_cons, List.mem_cons, not_or] at hn
    rw [List.foldl_cons, ih _ hn.2]
    unfold broadcastStep enqueue
    split_ifs
    · rfl
    · dsimp only
      exact lookupAssoc_setAssoc_ne _ _ hn.1
    · rfl
    · rfl

theorem broadcastFold_delivered_mono (m : WSMessage) (l : List WSClient)
    (acc : BroadcastResult) {p : WSClient × WSMessage} (hp : p ∈ acc.delivered) :
    p ∈ (l.foldl (broadcastStep m) acc).delivered := by
  induction l generalizing acc with
  | nil => exact hp
  | cons c rest ih =>
    rw [List.foldl_cons]
    apply ih
    unfold broadcastStep
    split_ifs
    · exact hp
    · exact List.mem_append_left _ hp
    · exact hp
    · exact hp

theorem broadcastFold_evict_mono (m : WSMessage) (l : List WSClient)
    (acc : BroadcastResult) {c : WSClient} (hc : c ∈ acc.evict) :
    c ∈ (l.foldl (broadcastStep m) acc).evict := by
  induction l generalizing acc with
  | nil => exact hc
  | cons c' rest ih =>
    rw [List.foldl_cons]
    apply ih
    unfold broadcastStep
    split_ifs
    · exact hc
    · exact hc
    · exact List.mem_append_left _ hc
    · exact hc

theorem broadcastStep_queues_other (m : WSMessage) (acc : BroadcastResult)
    (c' : WSClient) {cid : Nat} (hne : cid ≠ c'.cid) :
    lookupAssoc (broadcastStep m acc c').hub.queues cid =
      lookupAssoc acc.hub.queues cid := by
  unfold broadcastStep enqueue
  split_ifs
  · rfl
  · dsimp only
    exact lookupAssoc_setAssoc_ne _ _ hne
  · rfl
  · rfl

/-- Count of clients in `l` whose `send` buffer is full in `h`; these are the
clients a fan-out over `l` sends to the unregister channel. -/
def slowCount (h : Hub) (l : List WSClient) : Nat :=
  l.countP fun c => ! decide (queueLen h c.cid < sendCapacity)

theorem slowCount_cons (h : Hub) (c : WSClient) (l : List WSClient) :
    slowCount h (c :: l) =
      slowCount h l + if queueLen h c.cid < sendCapacity then 0 else 1 := by
  unfold slowCount
  rw [List.countP_cons]
  by_cases hf : queueLen h c.cid < sendCapacity <;> simp [hf]

theorem slowCount_congr {h h' : Hub} {l : List WSClient}
    (hq : ∀ c ∈ l, queueLen h' c.cid = queueLen h c.cid) :
    slowCount h' l = slowCount h l := by
  induction l with
  | nil => rfl
  | cons c rest ih =>
    rw [slowCount_cons, slowCount_cons, hq c (List.mem_cons_self _ _),
      ih fun c' hc' => hq c' (List.mem_cons_of_mem _ hc')]

theorem lookupAssoc_enqueue_other (h : Hub) (cid cid' : Nat) (m : WSMessage)
    (hne : cid' ≠ cid) :
    lookupAssoc (enqueue h cid m).queues cid' = lookupAssoc h.queues cid' := by
  unfold enqueue
  dsimp only
  exact lookupAssoc_setAssoc_ne _ _ hne

theorem queueLen_enqueue_other (h : Hub) (cid cid' : Nat) (m : WSMessage)
    (hne : cid' ≠ cid) : queueLen (enqueue h cid m) cid' = queueLen h cid' := by
  unfold queueLen
  rw [lookupAssoc_enqueue_other h cid cid' m hne]

theorem broadcastStep_free (m : WSMessage) (acc : BroadcastResult) (c : WSClient)
    (hnb : acc.blocked = false) (hfree : queueLen acc.hub c.cid < sendCapacity) :
    broadcastStep m acc c =
      { acc with
        hub := enqueue acc.hub c.cid m
        delivered := acc.delivered ++ [(c, m)] } := by
  unfold broadcastStep
  rw [if_neg (by simp [hnb]), if_pos hfree]

theorem broadcastStep_slow (m : WSMessage) (acc : BroadcastResult) (c : WSClient)
    (hnb : acc.blocked = false) (hfull : ¬ queueLen acc.hub c.cid < sendCapacity)
    (hsp : acc.evict.length < unregisterCap) :
    broadcastStep m acc c = { acc with evict := acc.evict ++ [c] } := by
  unfold broadcastStep
  rw [if_neg (by simp [hnb]), if_neg hfull, if_pos hsp]

/-- Fan-out over a snapshot whose number of full-buffer clients fits in the
unregister channel's remaining capacity: the loop never blocks, every
free-capacity client is enqueued the message (its buffer gains exactly the
broadcast message), and every full-buffer client ends up on the unregister
channel. -/
theorem broadcastFold_bounded (m : WSMessage) (l : List WSClient)
    (acc : BroadcastResult) (hnb : acc.blocked = false)
    (hcap : acc.evict.length + slowCount acc.hub l ≤ unregisterCap)
    (hnd : (l.map WSClient.cid).Nodup) :
    (l.foldl (broadcastStep m) acc).blocked = false ∧
      ∀ c ∈ l,
        (queueLen acc.hub c.cid < sendCapacity →
          (c, m) ∈ (l.foldl (broadcastStep m) acc).delivered ∧
            lookupAssoc (l.foldl (broadcastStep m) acc).hub.queues c.cid =
              some (((lookupAssoc acc.hub.queues c.cid).getD []) ++ [m])) ∧
        (¬ queueLen acc.hub c.cid < sendCapacity →
          c ∈ (l.foldl (broadcastStep m) acc).evict) := by
  induction l generalizing acc with
  | nil => exact ⟨hnb, fun c hc => absurd hc (List.not_mem_nil c)⟩
  | cons c' rest ih =>
    simp only [List.map_cons, List.nodup_cons] at hnd
    have hcid : ∀ c'' ∈ rest, c''.cid ≠ c'.cid := by
      intro c'' h'' hcontra
      exact hnd.1 (hcontra ▸ List.mem_map_of_mem WSClient.cid h'')
    rw [List.foldl_cons]
    by_cases hfree' : queueLen acc.hub c'.cid < sendCapacity
    · rw [broadcastStep_free m acc c' hnb hfree']
      set acc' : BroadcastResult :=
        { acc with
          hub := enqueue acc.hub c'.cid m
          delivered := acc.delivered ++ [(c', m)] } with hacc'
      have hb' : acc'.blocked = false := by rw [hacc']; exact hnb
      have hev' : acc'.evict = acc.evict := by rw [hacc']
      have hq : ∀ c'' ∈ rest, queueLen acc'.hub c''.cid = queueLen acc.hub c''.cid := by
        intro c'' h''
        rw [hacc']
        exact queueLen_enqueue_other acc.hub c'.cid c''.cid m (hcid c'' h'')
      have hlq : ∀ c'' ∈ rest,
          lookupAssoc acc'.hub.queues c''.cid = lookupAssoc acc.hub.queues c''.cid := by
        intro c'' h''
        rw [hacc']
        exact lookupAssoc_enqueue_other acc.hub c'.cid c''.cid m (hcid c'' h'')
      have hcap' : acc'.evict.length + slowCount acc'.hub rest ≤ unregisterCap := by
        rw [hev', slowCount_congr hq]
        rw [slowCount_cons, if_pos hfree'] at hcap
        omega
      have ihres := ih acc' hb' hcap' hnd.2
      refine ⟨ihres.1, ?_⟩
      intro c hcmem
      rcases List.mem_cons.mp hcmem with rfl | hmem
      · refine ⟨fun _ => ?_, fun hfull => absurd hfree' hfull⟩
        constructor
        · apply broadcastFold_delivered_mono m rest acc'
          rw [hacc']
          exact List.mem_append_right _ (List.mem_singleton_self _)
        · rw [broadcastFold_queues_untouched m rest acc' hnd.1, hacc']
          show lookupAssoc (enqueue acc.hub c.cid m).queues c.cid = _
          unfold enqueue
          dsimp only
          exact lookupAssoc_setAssoc_self _ _ _
      · have htr := ihres.2 c hmem
        constructor
        · intro hfree
          have hres := htr.1 (by rw [hq c hmem]; exact hfree)
          exact ⟨hres.1, by rw [hres.2, hlq c hmem]⟩
        · intro hfull
          exact htr.2 (by rw [hq c hmem]; exact hfull)
    · have hsp : acc.evict.length < unregisterCap := by
        rw [slowCount_cons, if_neg hfree'] at hcap
        omega
      rw [broadcastStep_slow m acc c' hnb hfree' hsp]
      set acc' : BroadcastResult := { acc with evict := acc.evict ++ [c'] } with hacc'
      have hb' : acc'.blocked = false := by rw [hacc']; exact hnb
      have hev' : acc'.evict = acc.evict ++ [c'] := by rw [hacc']
      have hhub : acc'.hub = acc.hub := by rw [hacc']
      have hcap' : acc'.evict.length + slowCount acc'.hub rest ≤ unregisterCap := by
        rw [hev', List.length_append, hhub]
        rw [slowCount_cons, if_neg hfree'] at hcap
        simp only [List.length_singleton]
        omega
      have ihres := ih acc' hb' hcap' hnd.2
      refine ⟨ihres.1, ?_⟩
      intro c hcmem
      rcases List.mem_cons.mp hcmem with rfl | hmem
      · refine ⟨fun hfree => absurd hfree hfree', fun _ => ?_⟩
        apply broadcastFold_evict_mono m rest acc'
        rw [hev']
        exact List.mem_append_right _ (List.mem_singleton_self _)
      · have htr := ihres.2 c hmem
        rw [hhub] at htr
        exact htr

theorem removeClient_preserves_not_registered {h : Hub} {c : WSClient}
    (e : WSClient) (hn : ¬ clientRegistered h c) :
    ¬ clientRegistered (removeClient h e) c := by
  unfold clientRegistered at *
  unfold removeClient
  cases hl : lookupAssoc h.clients e.accountID with
  | none => exact hn
  | some l =>
    dsimp only
    split_ifs with hmem hemp
    · by_cases hacc : c.accountID = e.accountID
      · rw [hacc, lookupAssoc_eraseAssoc_self]
        simp
      · rw [lookupAssoc_eraseAssoc_ne _ hacc]
        exact hn
    · by_cases hacc : c.accountID = e.accountID
      · dsimp only
        rw [hacc, lookupAssoc_setAssoc_self]
        simp only [Option.getD_some]
        intro hcm
        apply hn
        rw [hacc, hl]
        exact List.erase_subset _ _ hcm
      · dsimp only
        rw [lookupAssoc_setAssoc_ne _ _ hacc]
        exact hn
    · exact hn

theorem foldl_removeClient_preserves_not_registered {h : Hub} {c : WSClient}
    (l : List WSClient) (hn : ¬ clientRegistered h c) :
    ¬ clientRegistered (l.foldl removeClient h) c := by
  induction l generalizing h with
  | nil => exact hn
  | cons e rest ih =>
    rw [List.foldl_cons]
    exact ih (removeClient_preserves_not_registered e hn)

theorem nodup_entry_removeClient {h : Hub} (c e : WSClient)
    (hnd : ((lookupAssoc h.clients c.accountID).getD []).Nodup) :
    ((lookupAssoc (removeClient h e).clients c.accountID).getD []).Nodup := by
  unfold removeClient
  cases hl : lookupAssoc h.clients e.accountID with
  | none => exact hnd
  | some l =>
    dsimp only
    split_ifs with hmem hemp
    · by_cases hacc : c.accountID = e.accountID
      · rw [hacc, lookupAssoc_eraseAssoc_self]
        simp
      · rw [lookupAssoc_eraseAssoc_ne _ hacc]
        exact hnd
    · by_cases hacc : c.accountID = e.accountID
      · dsimp only
        rw [hacc, lookupAssoc_setAssoc_self]
        have hl2 : l.Nodup := by
          rw [hacc, hl] at hnd
          simpa using hnd
        simpa using hl2.erase e
      · dsimp only
        rw [lookupAssoc_setAssoc_ne _ _ hacc]
        exact hnd
    · exact hnd

theorem foldl_removeClient_unregisters {h : Hub} {c : WSClient}
    (l : List WSClient) (hc : c ∈ l)
    (hnd : ((lookupAssoc h.clients c.accountID).getD []).Nodup) :
    ¬ clientRegistered (l.foldl removeClient h) c := by
  induction l generalizing h with
  | nil => cases hc
  | cons e rest ih =>
    rw [List.foldl_cons]
    by_cases hce : c = e
    · subst hce
      by_cases hr : clientRegistered h c
      · exact foldl_removeClient_preserves_not_registered rest
          (removeClient_unregisters hr hnd)
      · exact foldl_removeClient_preserves_not_registered rest
          (by rw [removeClient_not_registered hr]; exact hr)
    · rcases List.mem_cons.mp hc with h1 | h1
      · exact absurd h1 hce
      · exact ih h1 (nodup_entry_removeClient c e hnd)

theorem foldl_removeClient_queues (l : List WSClient) (h : Hub) :
    (l.foldl removeClient h).queues = h.queues := by
  induction l generalizing h with
  | nil => rfl
  | cons e rest ih =>
    rw [List.foldl_cons, ih]
    unfold removeClient
    cases lookupAssoc h.clients e.accountID with
    | none => rfl
    | some l' =>
      dsimp only
      split_ifs <;> rfl

def cFree : WSClient := ⟨12, "a1", false⟩

def slowClient (i : Nat) : WSClient := ⟨i, "a1", false⟩

/-- Eleven clients with full 256-message `send` buffers followed by one
client with an empty buffer, all of account `"a1"`. -/
def hubOverload : Hub :=
  { clients := [("a1", (List.range 11).map (fun i => slowClient (i + 1)) ++ [cFree])]
    queues := (List.range 11).map (fun i => (i + 1, List.replicate 256 mA))
    closed := []
    stuck := false }

set_option maxRecDepth 100000 in
/-- C5 (counterexample): the claim fails when more than `unregisterCap` (10)
clients of the account have full buffers.  In `hubOverload` the eleventh
`h.unregister <- client` send blocks `Run` forever (the channel has capacity
10 and `Run`, executing the fan-out, is its only receiver): the free-capacity
client `cFree` is never enqueued the message, and the slow clients are never
unregistered — `slowClient 1` stays registered and no send channel is ever
closed. -/
theorem hub_backpressure_counterexample :
    queueLen hubOverload cFree.cid < sendCapacity ∧
      (cFree, mA) ∉ (broadcastToAccount hubOverload mA).delivered ∧
      clientRegistered (hubStep hubOverload (.broadcast mA)).1 (slowClient 1) ∧
      (hubStep hubOverload (.broadcast mA)).1.closed = [] := by
  decide

/-- C5 (amended): on a single broadcast to account `A` from a non-stuck hub —
one `broadcast` event processed by the hub loop together with the
`unregister` events its fan-out emitted — provided at most `unregisterCap`
(10, the unregister channel's capacity, the channel being empty at broadcast
start) clients of `A` have full outbound queues: every client of `A` whose
queue has free capacity is enqueued the serialized message (regardless of
slower clients of the same account), and every client of `A` whose queue is
full is emitted on the unregister channel and is no longer registered once
those unregisters are processed.  With more full-queue clients than that, the
fan-out deadlocks the hub (see the counterexample). -/
theorem hub_backpressure (h : Hub) (m : WSMessage) (c : WSClient)
    (hcons : clientsConsistent h) (hstuck : h.stuck = false)
    (hsnap : c ∈ (lookupAssoc h.clients m.accountID).getD [])
    (hnd : (((lookupAssoc h.clients m.accountID).getD []).map WSClient.cid).Nodup)
    (hslow : slowCount h ((lookupAssoc h.clients m.accountID).getD []) ≤
      unregisterCap) :
    (queueLen h c.cid < sendCapacity →
        (c, m) ∈ (broadcastToAccount h m).delivered ∧
          lookupAssoc (hubStep h (.broadcast m)).1.queues c.cid =
            some (((lookupAssoc h.queues c.cid).getD []) ++ [m])) ∧
      (¬ queueLen h c.cid < sendCapacity →
        c ∈ (broadcastToAccount h m).evict ∧
          ¬ clientRegistered (hubStep h (.broadcast m)).1 c) := by
  have hbd := broadcastFold_bounded m ((lookupAssoc h.clients m.accountID).getD [])
    ⟨h, [], [], false⟩ rfl (by simpa using hslow) hnd
  have hblocked : (broadcastToAccount h m).blocked = false := hbd.1
  have hstep : hubStep h (.broadcast m) =
      ((broadcastToAccount h m).evict.foldl removeClient (broadcastToAccount h m).hub,
        (broadcastToAccount h m).delivered) := by
    unfold hubStep
    rw [if_neg (by simp [hstuck])]
    dsimp only
    rw [if_neg (by simp [hblocked])]
  have hc2 := hbd.2 c hsnap
  constructor
  · intro hfree
    have hres := hc2.1 hfree
    refine ⟨hres.1, ?_⟩
    rw [hstep]
    dsimp only
    rw [foldl_removeClient_queues]
    exact hres.2
  · intro hfull
    have hev := hc2.2 hfull
    refine ⟨hev, ?_⟩
    rw [hstep]
    dsimp only
    have hacc : c.accountID = m.accountID := by
      cases hl : lookupAssoc h.clients m.accountID with
      | none => rw [hl] at hsnap; simp at hsnap
      | some l =>
        rw [hl] at hsnap
        exact hcons _ (lookupAssoc_mem hl) c (by simpa using hsnap)
    have hndc : ((lookupAssoc
        (broadcastToAccount h m).hub.clients c.accountID).getD []).Nodup := by
      unfold broadcastToAccount
      rw [broadcastFold_hub_clients m _ _]
      dsimp only
      rw [hacc]
      exact hnd.of_map
    exact foldl_removeClient_unregisters _ hev hndc

def cB : WSClient := ⟨2, "a1", false⟩

def hubAB : Hub := addClient (addClient emptyHub cA) cB

/-- C5 witness: a hub with two clients of account `"a1"`, neither slow; the
broadcast behavior at client `cB` (whose queue is empty, hence free). -/
theorem hub_backpressure_witness :
    (queueLen hubAB cB.cid < sendCapacity →
        (cB, mA) ∈ (broadcastToAccount hubAB mA).delivered ∧
          lookupAssoc (hubStep hubAB (.broadcast mA)).1.queues cB.cid =
            some (((lookupAssoc hubAB.queues cB.cid).getD []) ++ [mA])) ∧
      (¬ queueLen hubAB cB.cid < sendCapacity →
        cB ∈ (broadcastToAccount hubAB mA).evict ∧
          ¬ clientRegistered (hubStep hubAB (.broadcast mA)).1 cB) :=
  hub_backpressure hubAB mA cB (by decide) (by decide) (by decide) (by decide)
    (by decide)

/-! ## Settings edge (`SettingsHandler.UpdateSetting`)

The handler source is provided; the SQL `SettingsStore` implementation is not
(only the `internal/store/settings.go` interface), so the store operations are
modelled from the spec (§4.C).  The handler path modelled is the one after the
admin and nil-store guards and after a successful JSON decode, which is where
the claim's three version cases are decided.  A `Setting`'s `ID`, `UpdatedAt`
and `CreatedAt` columns are set inside the store and never observed by this
path, so they are omitted. -/

/-- The decoded `any` JSON value of a setting; opaque to the handler. -/
inductive JsonValue
  | null
  | bool (b : Bool)
  | num (n : Int)
  | str (s : String)
  deriving DecidableEq, Repr

structure Setting where
  key : String
  scope : String
  accountID : Option String
  value : JsonValue
  dataType : String
  category : String
  description : Option String
  isSecret : Bool
  version : Int
  updatedBy : Option String
  deriving DecidableEq, Repr

/-- The settings table's unique key `(key, scope, account_id)`; a missing
account is the empty string, as the handler passes it. -/
abbrev SettingsKey := String × String × String

abbrev SettingsDB := List (SettingsKey × Setting)

inductive StoreError
  | notFound
  | versionConflict
  deriving DecidableEq, Repr

/-- Modelled from the spec: `GetSetting(key, scope, account_id)` of the
missing SQL store — "single lookup; NotFound if absent" (§4.C); `none`
stands for `store.ErrNotFound`. -/
def getSetting (db : SettingsDB) (key scope accountID : String) : Option Setting :=
  lookupAssoc db (key, scope, accountID)

/-- Modelled from the spec: `UpsertSetting` of the missing SQL store —
"create or blind-replace; must populate `version` on `s` (by reading
current+1 within a transaction)" with versions "monotonic, starting at 1"
(§3, §4.C).  Returns the stored setting, whose version the Go caller
observes through the mutated `*store.Setting`. -/
def upsertSetting (db : SettingsDB) (s : Setting) : SettingsDB × Setting :=
  let k : SettingsKey := (s.key, s.scope, s.accountID.getD "")
  let newVersion :=
    match getSetting db s.key s.scope (s.accountID.getD "") with
    | some e => e.version + 1
    | none => 1
  let s' := { s with version := newVersion }
  (setAssoc db k s', s')

/-- Modelled from the spec: `UpdateSetting` of the missing SQL store — a
conditional update `WHERE key=? AND scope=? AND account_id=? AND
version=s.version`; zero rows affected reports `VersionConflict`; on success
the version is bumped (§4.C). -/
def updateSetting (db : SettingsDB) (s : Setting) :
    Except StoreError (SettingsDB × Setting) :=
  let k : SettingsKey := (s.key, s.scope, s.accountID.getD "")
  match getSetting db s.key s.scope (s.accountID.getD "") with
  | none => .error .notFound
  | some e =>
    if e.version = s.version then
      let s' := { s with version := s.version + 1 }
      .ok (setAssoc db k s', s')
    else .error .versionConflict

/-- The decoded body of `PUT /api/settings/{key}`; a JSON body without a
`version` member decodes to the Go zero value `0`. -/
structure UpdateSettingRequest where
  value : JsonValue
  scope : String
  accountID : Option String
  dataType : String
  category : String
  description : Option String
  isSecret : Option Bool
  version : Int
  updatedBy : Option String
  deriving DecidableEq, Repr

inductive UpdateSettingResponse
  | ok (newVersion : Int)
  | badRequestVersionRequired
  | conflict (currentVersion : Int)
  | notFound
  deriving DecidableEq, Repr

/-- `SettingsHandler.UpdateSetting` (`part_000:300-412`): default the scope to
`system`, dereference the account pointer, look the row up; create via
`UpsertSetting` without any version check when absent; otherwise demand a
nonzero matching version and update via `UpdateSetting`. -/
def updateSettingHandler (db : SettingsDB) (key : String)
    (req : UpdateSettingRequest) : UpdateSettingResponse × SettingsDB :=
  let scope := if req.scope = "" then "system" else req.scope
  let accountID := req.accountID.getD ""
  match getSetting db key scope accountID with
  | none =>
    let setting : Setting :=
      { key := key, scope := scope, accountID := req.accountID
        value := req.value, dataType := req.dataType, category := req.category
        description := req.description
        isSecret := req.isSecret.getD false
        version := 0, updatedBy := req.updatedBy }
    let res := upsertSetting db setting
    (.ok res.2.version, res.1)
  | some existing =>
    if req.version = 0 then (.badRequestVersionRequired, db)
    else if req.version ≠ existing.version then (.conflict existing.version, db)
    else
      let setting : Setting :=
        { key := key, scope := scope, accountID := req.accountID
          value := req.value
          dataType := if req.dataType ≠ "" then req.dataType else existing.dataType
          category := if req.category ≠ "" then req.category else existing.category
          description :=
            match req.description with
            | some d => some d
            | none => existing.description
          isSecret := req.isSecret.getD existing.isSecret
          version := req.version, updatedBy := req.updatedBy }
      match updateSetting db setting with
      | .ok res => (.ok res.2.version, res.1)
      | .error .versionConflict => (.conflict existing.version, db)
      | .error .notFound => (.notFound, db)

/-- C4: for every `PUT /api/settings/{key}`: when the key exists and the
request carries no version (the decoded zero), the response is 400; when the
request's version is present but differs from the stored version, the
response is 409 carrying the stored `current_version`; when no row exists,
the setting is created without any version check and the response reports
success with the new version (1, the first version of a fresh row). -/
theorem updateSettingHandler_version_cases (db : SettingsDB) (key : String)
    (req : UpdateSettingRequest) :
    (∀ e, getSetting db key (if req.scope = "" then "system" else req.scope)
        (req.accountID.getD "") = some e →
      (req.version = 0 →
        (updateSettingHandler db key req).1 = .badRequestVersionRequired) ∧
      (req.version ≠ 0 → req.version ≠ e.version →
        (updateSettingHandler db key req).1 = .conflict e.version)) ∧
    (getSetting db key (if req.scope = "" then "system" else req.scope)
        (req.accountID.getD "") = none →
      (updateSettingHandler db key req).1 = .ok 1 ∧
        ((getSetting (updateSettingHandler db key req).2 key
          (if req.scope = "" then "system" else req.scope)
          (req.accountID.getD "")).map Setting.version = some 1)) := by
  constructor
  · intro e he
    constructor
    · intro hv0
      unfold updateSettingHandler
      dsimp only
      rw [he]
      simp [hv0]
    · intro hv0 hvne
      unfold updateSettingHandler
      dsimp only
      rw [he]
      simp [hv0, hvne]
  · intro hnone
    unfold updateSettingHandler
    dsimp only
    rw [hnone]
    dsimp only
    unfold upsertSetting
    dsimp only
    rw [hnone]
    dsimp only
    refine ⟨rfl, ?_⟩
    unfold getSetting
    rw [lookupAssoc_setAssoc_self]
    rfl

def req0 : UpdateSettingRequest :=
  { value := .num 42, scope := "", accountID := none, dataType := "number"
    category := "monitor", description := none, isSecret := none
    version := 0, updatedBy := none }

/-- C4 witness: creating a fresh key on an empty store succeeds with
`new_version = 1` and stores version 1. -/
theorem updateSettingHandler_version_cases_witness :
    (updateSettingHandler [] "k" req0).1 = .ok 1 ∧
      ((getSetting (updateSettingHandler [] "k" req0).2 "k"
        (if req0.scope = "" then "system" else req0.scope)
        (req0.accountID.getD "")).map Setting.version = some 1) :=
  (updateSettingHandler_version_cases [] "k" req0).2 (by rfl)

end QccPlus
